import Mathlib

/-!
Shallow embedding of the load-generation and metrics-aggregation engine of
api_bench/python/benchmark_serving.py.

Modelling conventions:
- Python floats are modelled as exact rationals.
- The tokenizer is an abstract function from strings to token-id lists.
- The exponential inter-arrival draws of numpy and the wall-clock readings
  of time.perf_counter are modelled as oracle streams supplied as
  arguments, indexed by release step.
- Fallible Python operations are modelled with Except: integer and float
  division by zero raises ZeroDivisionError, list indexing out of range
  raises IndexError, and the numpy reductions (np.min, np.max) and
  percentiles raise on empty arrays.
-/

/-- A sampled request as used by benchmark_serving.py: the tuple
(prompt, prompt_len, output_len). -/
abbrev RequestSpec := String × ℕ × ℕ

/-- The outcome record of one dispatched request.  The dataclass itself is
defined in backend_request_func.py, which is outside the repository slice;
its fields are modelled from the spec (RequestOutcome, section 3) together
with the field accesses made in benchmark_serving.py (success, latency,
ttft, itl, generated_text, prompt_len, error). -/
structure RequestFuncOutput where
  success : Bool
  latency : ℚ
  ttft : ℚ
  itl : List ℚ
  generated_text : String
  prompt_len : ℕ
  error : Option String

/-- The BenchmarkMetrics dataclass of benchmark_serving.py. -/
structure BenchmarkMetrics where
  completed : ℕ
  successful_rate : ℚ
  total_input : ℕ
  total_output : ℕ
  request_throughput : ℚ
  input_throughput : ℚ
  output_throughput : ℚ
  min_ttft_ms : ℚ
  max_ttft_ms : ℚ
  mean_ttft_ms : ℚ
  median_ttft_ms : ℚ
  p90_ttft_ms : ℚ
  p99_ttft_ms : ℚ
  min_tpot_ms : ℚ
  max_tpot_ms : ℚ
  mean_tpot_ms : ℚ
  median_tpot_ms : ℚ
  p90_tpot_ms : ℚ
  p99_tpot_ms : ℚ
  min_tpr_ms : ℚ
  max_tpr_ms : ℚ
  mean_tpr_ms : ℚ
  median_tpr_ms : ℚ
  p90_tpr_ms : ℚ
  p99_tpr_ms : ℚ

/-- The runtime errors that calculate_metrics can raise in Python:
ZeroDivisionError from completed divided by len of outputs (or by dur_s),
IndexError from indexing input_requests, and the ValueError raised by the
numpy reductions on an empty array. -/
inductive MetricsError where
  | zeroDivisionError
  | indexError
  | emptyValueError
deriving DecidableEq

/-- Python division: raises ZeroDivisionError on a zero denominator,
otherwise returns the exact quotient. -/
def pydiv (a b : ℚ) : Except MetricsError ℚ :=
  if b = 0 then .error .zeroDivisionError else .ok (a / b)

/-- Insert a value into an ascending list, keeping it ascending. -/
def insertSorted (x : ℚ) : List ℚ → List ℚ
  | [] => [x]
  | y :: ys => if x ≤ y then x :: y :: ys else y :: insertSorted x ys

/-- Ascending sort, as performed internally by np.percentile. -/
def sortAsc (l : List ℚ) : List ℚ := l.foldr insertSorted []

/-- np.min on a list: raises ValueError on an empty array. -/
def npMin : List ℚ → Except MetricsError ℚ
  | [] => .error .emptyValueError
  | x :: xs => .ok (xs.foldl min x)

/-- np.max on a list: raises ValueError on an empty array. -/
def npMax : List ℚ → Except MetricsError ℚ
  | [] => .error .emptyValueError
  | x :: xs => .ok (xs.foldl max x)

/-- np.mean on a list: sum divided by length.  On an empty array numpy
returns NaN with a warning rather than raising; inside calculate_metrics
that case is unreachable because np.min on the same array has already
raised, so the empty case is mapped to the same error value. -/
def npMean : List ℚ → Except MetricsError ℚ
  | [] => .error .emptyValueError
  | x :: xs => .ok ((x + xs.sum) / (xs.length + 1))

/-- np.percentile with the default linear interpolation: on the ascending
sort s of the samples, the virtual rank is q / 100 * (n - 1) and the result
interpolates between the neighbouring order statistics.  The source only
ever passes the integer percentages 50, 90 and 99, so q is a natural
number here and the integer part and fractional part of the rank are the
euclidean quotient and remainder of q * (n - 1) by 100.  Raises on an
empty array (inside calculate_metrics this case is unreachable, because
np.min on the same array has already raised). -/
def npPercentile (l : List ℚ) (q : ℕ) : Except MetricsError ℚ :=
  match sortAsc l with
  | [] => .error .emptyValueError
  | x :: xs =>
    let s := x :: xs
    let n : ℕ := s.length
    let lower : ℕ := q * (n - 1) / 100
    let frac : ℚ := ((q * (n - 1) % 100 : ℕ) : ℚ) / 100
    let lo := s.getD lower x
    let hi := s.getD (lower + 1) lo
    .ok (lo + frac * (hi - lo))

/-- np.median equals np.percentile at q = 50 under linear interpolation. -/
def npMedian (l : List ℚ) : Except MetricsError ℚ := npPercentile l 50

/-- The six order statistics reported for one latency distribution, in
milliseconds: min, max, mean, median, p90, p99. -/
structure DistStats where
  mn : ℚ
  mx : ℚ
  mean : ℚ
  med : ℚ
  p90 : ℚ
  p99 : ℚ

/-- The six numpy calls calculate_metrics makes for one distribution, in
source order (min, max, mean, median, percentile 90, percentile 99), each
scaled from seconds to milliseconds. -/
def statBlock (l : List ℚ) : Except MetricsError DistStats := do
  let mn ← npMin l
  let mx ← npMax l
  let mean ← npMean l
  let med ← npMedian l
  let p90 ← npPercentile l 90
  let p99 ← npPercentile l 99
  .ok ⟨mn * 1000, mx * 1000, mean * 1000, med * 1000, p90 * 1000, p99 * 1000⟩

/-- The ttft statistics are guarded in the source: each call is made on
the expression (ttfts or 0), which in Python is the scalar 0 whenever
ttfts is the empty list, so every ttft statistic degrades to 0 instead of
raising (the source comments that ttfts is empty when the backend does not
stream). -/
def ttftBlock (l : List ℚ) : Except MetricsError DistStats :=
  if l.isEmpty then .ok ⟨0, 0, 0, 0, 0, 0⟩ else statBlock l

/-- The accumulator built by the main loop of calculate_metrics. -/
structure LoopAcc where
  actual_output_lens : List ℕ
  total_input : ℕ
  completed : ℕ
  tpots : List ℚ
  ttfts : List ℚ
  tprs : List ℚ

/-- The loop of calculate_metrics over outputs, carried out by recursion
on the remaining outputs with i the index of the current output.  The
Python loop appends at the back of each growing list; the recursion here
conses the contribution of output i onto the accumulator of the remaining
outputs, producing the same final lists.  For a successful output the
tokenized length of generated_text is appended, input_requests[i] is read
(IndexError when i is out of range), a tpot sample is added only when
output_len exceeds 1, and ttft, latency and the completion count are
recorded; a failed output only appends 0 to actual_output_lens. -/
def metricsLoopAux (input_requests : List RequestSpec) (tok : String → List ℕ) :
    List RequestFuncOutput → ℕ → Except MetricsError LoopAcc
  | [], _ => .ok ⟨[], 0, 0, [], [], []⟩
  | o :: rest, i =>
    if o.success then
      match input_requests[i]? with
      | none => .error .indexError
      | some req => do
        let acc ← metricsLoopAux input_requests tok rest (i + 1)
        let output_len := (tok o.generated_text).length
        .ok ⟨output_len :: acc.actual_output_lens,
             req.2.1 + acc.total_input,
             acc.completed + 1,
             if 1 < output_len then
               (o.latency - o.ttft) / ((output_len : ℚ) - 1) :: acc.tpots
             else acc.tpots,
             o.ttft :: acc.ttfts,
             o.latency :: acc.tprs⟩
    else do
      let acc ← metricsLoopAux input_requests tok rest (i + 1)
      .ok ⟨0 :: acc.actual_output_lens, acc.total_input, acc.completed,
           acc.tpots, acc.ttfts, acc.tprs⟩

/-- The loop of calculate_metrics starting at index 0. -/
def metricsLoop (input_requests : List RequestSpec) (tok : String → List ℕ)
    (outputs : List RequestFuncOutput) : Except MetricsError LoopAcc :=
  metricsLoopAux input_requests tok outputs 0

/-- calculate_metrics of benchmark_serving.py.  After the loop, the
BenchmarkMetrics constructor arguments are evaluated in Python source
order: successful_rate (integer division by len(outputs)), the three
throughputs (division by dur_s), then the ttft block, the tpot block and
the tpr block; the first raising operation aborts the whole call. -/
def calculate_metrics (input_requests : List RequestSpec)
    (outputs : List RequestFuncOutput) (dur_s : ℚ) (tok : String → List ℕ) :
    Except MetricsError (BenchmarkMetrics × List ℕ) := do
  let acc ← metricsLoop input_requests tok outputs
  let successful_rate ← pydiv (acc.completed : ℚ) ((outputs.length : ℚ))
  let request_throughput ← pydiv (acc.completed : ℚ) dur_s
  let input_throughput ← pydiv (acc.total_input : ℚ) dur_s
  let output_throughput ← pydiv ((acc.actual_output_lens.sum : ℚ)) dur_s
  let t ← ttftBlock acc.ttfts
  let p ← statBlock acc.tpots
  let r ← statBlock acc.tprs
  .ok ({ completed := acc.completed,
         successful_rate := successful_rate,
         total_input := acc.total_input,
         total_output := acc.actual_output_lens.sum,
         request_throughput := request_throughput,
         input_throughput := input_throughput,
         output_throughput := output_throughput,
         min_ttft_ms := t.mn, max_ttft_ms := t.mx, mean_ttft_ms := t.mean,
         median_ttft_ms := t.med, p90_ttft_ms := t.p90, p99_ttft_ms := t.p99,
         min_tpot_ms := p.mn, max_tpot_ms := p.mx, mean_tpot_ms := p.mean,
         median_tpot_ms := p.med, p90_tpot_ms := p.p90, p99_tpot_ms := p.p99,
         min_tpr_ms := r.mn, max_tpr_ms := r.mx, mean_tpr_ms := r.mean,
         median_tpr_ms := r.med, p90_tpr_ms := r.p90, p99_tpr_ms := r.p99 },
       acc.actual_output_lens)

/-- The request rate argument: float("inf") or a finite rate. -/
inductive RequestRate where
  | inf : RequestRate
  | finite : ℚ → RequestRate
deriving DecidableEq

/-- The generator get_request (and its async twin get_request_async):
each spec of the input list is yielded in order; after a yield the
generator sleeps for an exponential draw when the rate is finite and does
not sleep at all when the rate is inf.  The draws of
np.random.exponential(1.0 / request_rate) are supplied as an oracle
stream, consumed one entry per finite-rate sleep; the returned list pairs
each yielded spec with the sleep that follows its release (0 in burst
mode). -/
def get_requestAux (request_rate : RequestRate) (expSamples : ℕ → ℚ) :
    List RequestSpec → ℕ → List (RequestSpec × ℚ)
  | [], _ => []
  | r :: rest, n =>
    match request_rate with
    | .inf => (r, 0) :: get_requestAux request_rate expSamples rest n
    | .finite _ => (r, expSamples n) :: get_requestAux request_rate expSamples rest (n + 1)

/-- get_request starting at the first oracle entry. -/
def get_request (input_requests : List RequestSpec) (request_rate : RequestRate)
    (expSamples : ℕ → ℚ) : List (RequestSpec × ℚ) :=
  get_requestAux request_rate expSamples input_requests 0

/-- The worker loop of benchmark (the thread_id path of
benchmark_serving.py): requests are taken in order from its request list
(the yields of get_request, whose sleeps are absorbed into the elapsed
oracle); at release point i, if thread_stop_time exceeds 0 and the elapsed
wall clock at that point has reached thread_stop_time, the worker breaks
and returns the outcomes accumulated so far; otherwise it dispatches the
request synchronously and appends the single completed outcome before
looking at the next release point. -/
def benchWorkerAux {α β : Type} (stop_deadline : ℚ) (elapsedAt : ℕ → ℚ)
    (exec : α → β) : List α → ℕ → List β
  | [], _ => []
  | r :: rest, i =>
    if 0 < stop_deadline ∧ stop_deadline ≤ elapsedAt i then []
    else exec r :: benchWorkerAux stop_deadline elapsedAt exec rest (i + 1)

/-- The slice of the pool handed to worker i in main:
input_requests[i * num_prompts : (i + 1) * num_prompts]. -/
def slicePool {α : Type} (pool : List α) (num_prompts : ℕ) (i : ℕ) : List α :=
  (pool.drop (i * num_prompts)).take num_prompts

/-- The concatenated outcome list built by main in partitioned mode: each
of num_threads workers runs the worker loop over its own contiguous slice,
and after all joins the per-worker outcome lists are concatenated in
worker-id order.  The elapsed oracle el takes the worker id and the
release step. -/
def partitionedOutputs (pool : List RequestSpec) (num_prompts num_threads : ℕ)
    (stop_deadline : ℚ) (el : ℕ → ℕ → ℚ)
    (exec : RequestSpec → RequestFuncOutput) : List RequestFuncOutput :=
  ((List.range num_threads).map fun i =>
    benchWorkerAux stop_deadline (el i) exec (slicePool pool num_prompts i) 0).flatten

/-- Fixture tokenizer for the concrete scenarios: one token per character
of the generated text. -/
def tokLen (s : String) : List ℕ := s.data.map fun _ => 0

@[simp] theorem ok_bind {ε α β : Type} (a : α) (f : α → Except ε β) :
    (Except.ok a >>= f) = f a := rfl

@[simp] theorem error_bind {ε α β : Type} (e : ε) (f : α → Except ε β) :
    ((Except.error e : Except ε α) >>= f) = Except.error e := rfl

def c8_inputs : List RequestSpec := [("p1", 10, 4), ("p2", 20, 4), ("p3", 10, 4), ("p4", 30, 4)]

def c8_outputs : List RequestFuncOutput :=
  [⟨true, 1, 1/10, [], "aaaaa", 10, none⟩,
   ⟨true, 2, 2/10, [], "aaaaa", 20, none⟩,
   ⟨true, 1, 1/10, [], "aaaaa", 10, none⟩,
   ⟨true, 2, 2/10, [], "aaaaa", 30, none⟩]

/-- Evaluation of the calculate_metrics loop on the concrete scenario of
claim C8. -/
theorem c8_loop_eval : metricsLoop c8_inputs tokLen c8_outputs =
    .ok ⟨[5, 5, 5, 5], 70, 4, [9/40, 9/20, 9/40, 9/20], [1/10, 2/10, 1/10, 2/10], [1, 2, 1, 2]⟩ := by
  norm_num [metricsLoop, metricsLoopAux, c8_inputs, c8_outputs, tokLen]

/-- Evaluation of the ttft statistics on the concrete scenario of C8. -/
theorem c8_ttft_eval : ttftBlock [1/10, 1/5, 1/10, 1/5] = .ok ⟨100, 200, 150, 150, 200, 200⟩ := by
  norm_num [ttftBlock, statBlock, npMin, npMax, npMean, npMedian, npPercentile, sortAsc, insertSorted]

/-- Evaluation of the tpot statistics on the concrete scenario of C8. -/
theorem c8_tpot_eval : statBlock [9/40, 9/20, 9/40, 9/20] = .ok ⟨225, 450, 675/2, 675/2, 450, 450⟩ := by
  norm_num [statBlock, npMin, npMax, npMean, npMedian, npPercentile, sortAsc, insertSorted]

/-- Evaluation of the tpr statistics on the concrete scenario of C8. -/
theorem c8_tpr_eval : statBlock [1, 2, 1, 2] = .ok ⟨1000, 2000, 1500, 1500, 2000, 2000⟩ := by
  norm_num [statBlock, npMin, npMax, npMean, npMedian, npPercentile, sortAsc, insertSorted]

/-- Length of the concrete outcome list of C8. -/
theorem c8_outputs_length : c8_outputs.length = 4 := rfl

/-- C8: for 4 requests with prompt lengths [10, 20, 10, 30], all outcomes
successful with latencies [1, 2, 1, 2] s, ttfts [0.1, 0.2, 0.1, 0.2] s,
each generated text tokenizing to exactly 5 tokens, and duration 2 s,
calculate_metrics returns request_throughput = 2, input_throughput = 35,
output_throughput = 10 and mean_ttft_ms = 150. -/
theorem calculate_metrics_concrete_scenario :
    (calculate_metrics c8_inputs c8_outputs 2 tokLen).map
      (fun p => (p.1.request_throughput, p.1.input_throughput,
                 p.1.output_throughput, p.1.mean_ttft_ms)) =
    .ok (2, 35, 10, 150) := by
  norm_num [calculate_metrics, c8_loop_eval, c8_ttft_eval, c8_tpot_eval, c8_tpr_eval,
    c8_outputs_length, pydiv, Except.map]

/-- C10: on an empty outcome list calculate_metrics raises
ZeroDivisionError while computing successful_rate = completed /
len(outputs), for every input_requests list, duration and tokenizer, so
the aggregator presupposes that at least one outcome was dispatched. -/
theorem calculate_metrics_empty_outputs (input_requests : List RequestSpec)
    (dur_s : ℚ) (tok : String → List ℕ) :
    calculate_metrics input_requests [] dur_s tok = .error .zeroDivisionError := by
  simp [calculate_metrics, metricsLoop, metricsLoopAux, pydiv]

/-- A failed outcome, as produced by a request function on transport
failure. -/
def c1_failed : RequestFuncOutput := ⟨false, 0, 0, [], "", 0, some ("request timed out")⟩

/-- C1: on a non-empty outcome list in which every outcome failed, the
loop of calculate_metrics does yield completed = 0 and total_output = 0,
but calculate_metrics itself raises the numpy ValueError on np.min of the
empty tpot list instead of returning a metrics report with the latency
distributions marked unavailable: only the ttft statistics are guarded by
the (ttfts or 0) idiom, the tpot and tpr statistics are not. -/
theorem calculate_metrics_all_failed_raises :
    calculate_metrics [("p", 10, 4)] [c1_failed] 1 tokLen = .error .emptyValueError
    ∧ (metricsLoop [("p", 10, 4)] tokLen [c1_failed]).map
        (fun acc => (acc.completed, acc.actual_output_lens.sum)) = .ok (0, 0) := by
  constructor
  · norm_num [calculate_metrics, metricsLoop, metricsLoopAux, c1_failed, pydiv,
      ttftBlock, statBlock, npMin]
  · norm_num [metricsLoop, metricsLoopAux, c1_failed, Except.map]

/-- The four-request pool of the C2 scenario, with prompt lengths 10, 20,
30 and 40. -/
def c2_pool : List RequestSpec := [("a", 10, 4), ("b", 20, 4), ("c", 30, 4), ("d", 40, 4)]

/-- The executor of the C2 scenario: every dispatched request succeeds,
takes 1 s with ttft 0.5 s, generates 4 tokens of text and carries the
prompt_len of the request that produced it. -/
def c2_exec : RequestSpec → RequestFuncOutput := fun r => ⟨true, 1, 1/2, [], "aaaa", r.2.1, none⟩

/-- The elapsed-clock oracle of the C2 scenario: worker 0 starts at 0 and
is past its stop deadline by its second release point (its first request
ran longer than the deadline), worker 1 never reaches the deadline. -/
def c2_el : ℕ → ℕ → ℚ := fun i step => if i = 0 then (if step = 0 then 0 else 2) else 0

/-- C2: in partitioned mode with 2 workers over a pool of 4 requests
(2 per slice) and stop deadline 1, worker 0 dispatches request a and then
halts at its second release point, while worker 1 dispatches its whole
slice [c, d].  The successful outcomes therefore stem from the requests
with prompt lengths 10, 30 and 40 (sum 80, and each outcome carries its
producing prompt_len), but calculate_metrics matches outcomes to
input_requests by position in the concatenated list and computes
total_input = 10 + 20 + 30 = 60, charging the prompt_len of request b,
which worker 0 never dispatched, instead of that of request d. -/
theorem partitioned_total_input_misattribution :
    ((partitionedOutputs c2_pool 2 2 1 c2_el c2_exec).map fun o => o.prompt_len) = [10, 30, 40]
    ∧ (calculate_metrics c2_pool (partitionedOutputs c2_pool 2 2 1 c2_el c2_exec) 1
        tokLen).map (fun p => p.1.total_input) = .ok 60 := by
  have hout : partitionedOutputs c2_pool 2 2 1 c2_el c2_exec =
      [⟨true, 1, 1/2, [], "aaaa", 10, none⟩,
       ⟨true, 1, 1/2, [], "aaaa", 30, none⟩,
       ⟨true, 1, 1/2, [], "aaaa", 40, none⟩] := by
    norm_num [partitionedOutputs, slicePool, benchWorkerAux, c2_pool, c2_el, c2_exec,
      List.range_succ]
  rw [hout]
  constructor
  · simp
  · norm_num [calculate_metrics, metricsLoop, metricsLoopAux, tokLen, pydiv,
      ttftBlock, statBlock, npMin, npMax, npMean, npMedian, npPercentile, sortAsc,
      insertSorted, c2_pool, Except.map]
    simp

/-- The sequence of yields of get_request is the input list itself,
whatever the rate, the oracle and the starting oracle index. -/
theorem get_requestAux_map_fst (rate : RequestRate) (samples : ℕ → ℚ) :
    ∀ (reqs : List RequestSpec) (n : ℕ),
      (get_requestAux rate samples reqs n).map Prod.fst = reqs := by
  intro reqs
  induction reqs with
  | nil => intro n; cases rate <;> simp [get_requestAux]
  | cons r rest ih => intro n; cases rate <;> simp [get_requestAux] <;> apply ih

/-- In burst mode every sleep recorded by get_request is zero. -/
theorem get_requestAux_inf_delay (samples : ℕ → ℚ) :
    ∀ (reqs : List RequestSpec) (n : ℕ),
      ∀ p ∈ get_requestAux RequestRate.inf samples reqs n, p.2 = 0 := by
  intro reqs
  induction reqs with
  | nil => intro n p hp; simp [get_requestAux] at hp
  | cons r rest ih =>
    intro n p hp
    simp [get_requestAux] at hp
    rcases hp with h | h
    · rw [h]
    · exact ih n p h

/-- C5: get_request yields exactly the specs of the input list, each
once, unmodified and in order (N releases for N specs), and when the
request rate is inf every inter-release sleep is zero. -/
theorem get_request_releases_all_specs (reqs : List RequestSpec)
    (rate : RequestRate) (samples : ℕ → ℚ) :
    (get_request reqs rate samples).map Prod.fst = reqs
    ∧ (get_request reqs rate samples).length = reqs.length
    ∧ (rate = RequestRate.inf → ∀ p ∈ get_request reqs rate samples, p.2 = 0) := by
  refine ⟨get_requestAux_map_fst rate samples reqs 0, ?_, ?_⟩
  · have h := congrArg List.length (get_requestAux_map_fst rate samples reqs 0)
    simpa [get_request] using h
  · intro hrate p hp
    subst hrate
    exact get_requestAux_inf_delay samples reqs 0 p hp

/-- The worker loop always returns the executions of an initial segment
of its request list: there is a cut index j such that exactly the first j
requests were dispatched, no dispatched release point had reached the
deadline, and if the cut is strict the deadline had been reached at the
cut point. -/
theorem benchWorkerAux_halts {α β : Type} (stop : ℚ) (el : ℕ → ℚ) (exec : α → β) :
    ∀ (reqs : List α) (i : ℕ),
      ∃ j ≤ reqs.length,
        benchWorkerAux stop el exec reqs i = (reqs.take j).map exec
        ∧ (∀ d < j, ¬(0 < stop ∧ stop ≤ el (i + d)))
        ∧ (j < reqs.length → (0 < stop ∧ stop ≤ el (i + j))) := by
  intro reqs
  induction reqs with
  | nil =>
    intro i
    refine ⟨0, Nat.le_refl 0, by simp [benchWorkerAux], ?_, ?_⟩
    · intro d hd
      exact absurd hd (by omega)
    · intro hlt
      exact absurd hlt (by simp)
  | cons r rest ih =>
    intro i
    by_cases h : 0 < stop ∧ stop ≤ el i
    · refine ⟨0, Nat.zero_le _, by simp [benchWorkerAux, h], by omega, ?_⟩
      intro _
      simpa using h
    · obtain ⟨j, hj, heq, hnotrig, htrig⟩ := ih (i + 1)
      refine ⟨j + 1, by simpa using Nat.succ_le_succ hj, ?_, ?_, ?_⟩
      · simp [benchWorkerAux, h, heq]
      · intro d hd
        cases d with
        | zero => simpa using h
        | succ d' =>
          have harith : i + (d' + 1) = (i + 1) + d' := by omega
          rw [harith]
          exact hnotrig d' (by omega)
      · intro hlt
        have harith : i + (j + 1) = (i + 1) + j := by omega
        rw [harith]
        exact htrig (by simpa using hlt)

/-- C7: with a positive stop deadline a worker never dispatches a request
at a release point where its elapsed time has already reached the
deadline; when the deadline triggers it halts and returns exactly the
outcomes accumulated so far, discarding the rest of its list; and every
dispatched request contributes its completed outcome to the returned list
(the deadline is consulted only at release boundaries, never mid-request,
so an in-flight request is never cancelled). -/
theorem stop_deadline_boundary_semantics {α β : Type} (stop_deadline : ℚ)
    (elapsedAt : ℕ → ℚ) (exec : α → β) (reqs : List α) :
    ∃ j ≤ reqs.length,
      benchWorkerAux stop_deadline elapsedAt exec reqs 0 = (reqs.take j).map exec
      ∧ (∀ d < j, ¬(0 < stop_deadline ∧ stop_deadline ≤ elapsedAt d))
      ∧ (j < reqs.length → (0 < stop_deadline ∧ stop_deadline ≤ elapsedAt j)) := by
  obtain ⟨j, hj, heq, hnotrig, htrig⟩ := benchWorkerAux_halts stop_deadline elapsedAt exec reqs 0
  refine ⟨j, hj, heq, ?_, ?_⟩
  · intro d hd
    have h := hnotrig d hd
    simpa using h
  · intro hlt
    have h := htrig hlt
    simpa using h

/-- With no stop deadline the worker loop dispatches its whole request
list in order: args.thread_stop_time = 0 never triggers the break. -/
theorem benchWorkerAux_no_deadline {α β : Type} (el : ℕ → ℚ) (exec : α → β) :
    ∀ (reqs : List α) (i : ℕ), benchWorkerAux 0 el exec reqs i = reqs.map exec := by
  intro reqs
  induction reqs with
  | nil => intro i; simp [benchWorkerAux]
  | cons r rest ih => intro i; simp [benchWorkerAux, ih]

/-- Each slice has exactly k elements when the pool has N * k elements
and the worker index is below N. -/
theorem slicePool_length {α : Type} (pool : List α) (N k i : ℕ) (hN : i < N)
    (h : pool.length = N * k) : (slicePool pool k i).length = k := by
  have hk : i * k + k ≤ N * k := by
    calc i * k + k = (i + 1) * k := by ring
    _ ≤ N * k := Nat.mul_le_mul_right k hN
  simp [slicePool]
  omega

/-- Element m of slice i is element i * k + m of the pool. -/
theorem slicePool_getElem? {α : Type} (pool : List α) (k i m : ℕ) (hm : m < k) :
    (slicePool pool k i)[m]? = pool[i * k + m]? := by
  unfold slicePool
  rw [List.getElem?_take_of_lt hm, List.getElem?_drop]

/-- Concatenating the first N contiguous slices of width k reproduces the
first N * k elements of the pool. -/
theorem slices_flatten {α : Type} (k : ℕ) :
    ∀ (N : ℕ) (pool : List α), N * k ≤ pool.length →
      ((List.range N).map (slicePool pool k)).flatten = pool.take (N * k) := by
  intro N
  induction N with
  | zero => intro pool _; simp
  | succ n ih =>
    intro pool h
    have h1 : n * k ≤ pool.length :=
      le_trans (Nat.mul_le_mul_right k (Nat.le_succ n)) h
    rw [List.range_succ, List.map_append, List.flatten_append, ih pool h1]
    have harith : (n + 1) * k = n * k + k := by ring
    rw [harith, List.take_add]
    simp [slicePool]

/-- C6: with N workers over a pool of exactly N * k requests, worker i
receives the k requests at positions i * k .. (i + 1) * k - 1 of the
pool, the slices concatenate back (in worker-id order) to the whole pool,
every worker dispatches only an initial segment of its own slice whatever
its deadline and clock (so never a request outside its slice), and when no
deadline triggers the concatenation of the per-worker outcome lists, in
worker-id order then dispatch order, executes the whole pool and has
length N * k. -/
theorem partitioned_slicing_invariants {α β : Type} (pool : List α) (N k : ℕ)
    (exec : α → β) (el : ℕ → ℕ → ℚ) (h : pool.length = N * k) :
    (∀ i, i < N → (slicePool pool k i).length = k
        ∧ ∀ m, m < k → (slicePool pool k i)[m]? = pool[i * k + m]?)
    ∧ ((List.range N).map (slicePool pool k)).flatten = pool
    ∧ (∀ (stop : ℚ) (elw : ℕ → ℚ) (i : ℕ), ∃ j,
        benchWorkerAux stop elw exec (slicePool pool k i) 0 =
          ((slicePool pool k i).take j).map exec)
    ∧ ((List.range N).map fun i =>
        benchWorkerAux 0 (el i) exec (slicePool pool k i) 0).flatten = pool.map exec
    ∧ ((List.range N).map fun i =>
        benchWorkerAux 0 (el i) exec (slicePool pool k i) 0).flatten.length = N * k := by
  have hcover : ((List.range N).map (slicePool pool k)).flatten = pool := by
    have := slices_flatten k N pool (le_of_eq h.symm)
    rw [this, ← h, List.take_length]
  have hwork : ((List.range N).map fun i =>
      benchWorkerAux 0 (el i) exec (slicePool pool k i) 0).flatten = pool.map exec := by
    have hfun : (fun i => benchWorkerAux 0 (el i) exec (slicePool pool k i) 0) =
        fun i => (slicePool pool k i).map exec := by
      funext i
      exact benchWorkerAux_no_deadline (el i) exec (slicePool pool k i) 0
    rw [hfun]
    have hmm : ((List.range N).map fun i => (slicePool pool k i).map exec) =
        ((List.range N).map (slicePool pool k)).map (List.map exec) := by
      rw [List.map_map]
      rfl
    rw [hmm, ← List.map_flatten, hcover]
  refine ⟨?_, hcover, ?_, hwork, ?_⟩
  · intro i hi
    exact ⟨slicePool_length pool N k i hi h,
           fun m hm => slicePool_getElem? pool k i m hm⟩
  · intro stop elw i
    obtain ⟨j, _, heq, _, _⟩ :=
      benchWorkerAux_halts stop elw exec (slicePool pool k i) 0
    exact ⟨j, heq⟩
  · rw [hwork, List.length_map, h]

/-- Witness pool for the C6 invariants: 4 requests split across 2 workers
of 2 requests each. -/
def c6_pool : List ℕ := [10, 20, 30, 40]

/-- Witness for C6 at a concrete pool of size 2 * 2. -/
theorem partitioned_slicing_invariants_witness :
    c6_pool.length = 2 * 2
    ∧ ((∀ i, i < 2 → (slicePool c6_pool 2 i).length = 2
          ∧ ∀ m, m < 2 → (slicePool c6_pool 2 i)[m]? = c6_pool[i * 2 + m]?)
      ∧ ((List.range 2).map (slicePool c6_pool 2)).flatten = c6_pool
      ∧ (∀ (stop : ℚ) (elw : ℕ → ℚ) (i : ℕ), ∃ j,
          benchWorkerAux stop elw (fun x => x + 1) (slicePool c6_pool 2 i) 0 =
            ((slicePool c6_pool 2 i).take j).map (fun x => x + 1))
      ∧ ((List.range 2).map fun i =>
          benchWorkerAux 0 (fun _ => (0 : ℚ)) (fun x => x + 1) (slicePool c6_pool 2 i) 0
            ).flatten = c6_pool.map (fun x => x + 1)
      ∧ ((List.range 2).map fun i =>
          benchWorkerAux 0 (fun _ => (0 : ℚ)) (fun x => x + 1) (slicePool c6_pool 2 i) 0
            ).flatten.length = 2 * 2) :=
  ⟨by decide, partitioned_slicing_invariants c6_pool 2 2 (fun x => x + 1)
    (fun _ _ => 0) (by decide)⟩

/-- Any successful run of the calculate_metrics loop yields: completed is
the number of successful outcomes, the tpot samples are exactly one value
(latency - ttft) / (output_len - 1) per successful outcome whose tokenized
output length exceeds 1, in order, and the ttft and tpr samples are the
ttft and latency of each successful outcome, in order. -/
theorem metricsLoopAux_char (ips : List RequestSpec) (tok : String → List ℕ) :
    ∀ (outs : List RequestFuncOutput) (i : ℕ) (acc : LoopAcc),
      metricsLoopAux ips tok outs i = .ok acc →
      acc.completed = (outs.filter fun o => o.success).length
      ∧ acc.tpots = ((outs.filter fun o =>
            o.success && decide (1 < (tok o.generated_text).length)).map fun o =>
            (o.latency - o.ttft) / (((tok o.generated_text).length : ℚ) - 1))
      ∧ acc.ttfts = ((outs.filter fun o => o.success).map fun o => o.ttft)
      ∧ acc.tprs = ((outs.filter fun o => o.success).map fun o => o.latency) := by
  intro outs
  induction outs with
  | nil =>
    intro i acc h
    simp [metricsLoopAux] at h
    subst h
    simp
  | cons o rest ih =>
    intro i acc h
    by_cases ho : o.success
    · cases hip : ips[i]? with
      | none => simp [metricsLoopAux, ho, hip] at h
      | some req =>
        simp only [metricsLoopAux, ho, hip, if_true] at h
        cases haux : metricsLoopAux ips tok rest (i + 1) with
        | error e => rw [haux] at h; simp at h
        | ok acc2 =>
          rw [haux, ok_bind] at h
          obtain ⟨h1, h2, h3, h4⟩ := ih (i + 1) acc2 haux
          simp only [Except.ok.injEq] at h
          subst h
          refine ⟨?_, ?_, ?_, ?_⟩
          · simp [List.filter_cons, ho, h1]
          · by_cases hlen : 1 < (tok o.generated_text).length
            · simp [List.filter_cons, ho, hlen, h2]
            · simp [List.filter_cons, ho, hlen, h2]
          · simp [List.filter_cons, ho, h3]
          · simp [List.filter_cons, ho, h4]
    · simp only [metricsLoopAux, ho, if_false, Bool.false_eq_true] at h
      cases haux : metricsLoopAux ips tok rest (i + 1) with
      | error e => rw [haux] at h; simp at h
      | ok acc2 =>
        rw [haux, ok_bind] at h
        obtain ⟨h1, h2, h3, h4⟩ := ih (i + 1) acc2 haux
        simp only [Except.ok.injEq] at h
        subst h
        refine ⟨?_, ?_, ?_, ?_⟩
        · simp [List.filter_cons, ho, h1]
        · simp [List.filter_cons, ho, h2]
        · simp [List.filter_cons, ho, h3]
        · simp [List.filter_cons, ho, h4]

/-- The calculate_metrics loop raises nothing as long as every index it
visits is inside input_requests. -/
theorem metricsLoopAux_total (ips : List RequestSpec) (tok : String → List ℕ) :
    ∀ (outs : List RequestFuncOutput) (i : ℕ), i + outs.length ≤ ips.length →
      ∃ acc, metricsLoopAux ips tok outs i = .ok acc := by
  intro outs
  induction outs with
  | nil => intro i _; exact ⟨⟨[], 0, 0, [], [], []⟩, rfl⟩
  | cons o rest ih =>
    intro i h
    have hrest : (i + 1) + rest.length ≤ ips.length := by
      simp only [List.length_cons] at h
      omega
    obtain ⟨acc, hacc⟩ := ih (i + 1) hrest
    by_cases ho : o.success
    · have hi : i < ips.length := by
        simp only [List.length_cons] at h
        omega
      obtain ⟨req, hip⟩ : ∃ req, ips[i]? = some req :=
        ⟨ips.get ⟨i, hi⟩, by rw [List.getElem?_eq_getElem hi]; rfl⟩
      refine ⟨⟨(tok o.generated_text).length :: acc.actual_output_lens,
               req.2.1 + acc.total_input, acc.completed + 1,
               if 1 < (tok o.generated_text).length then
                 (o.latency - o.ttft) / (((tok o.generated_text).length : ℚ) - 1) :: acc.tpots
               else acc.tpots,
               o.ttft :: acc.ttfts, o.latency :: acc.tprs⟩, ?_⟩
      simp [metricsLoopAux, ho, hip, hacc]
    · refine ⟨⟨0 :: acc.actual_output_lens, acc.total_input, acc.completed,
               acc.tpots, acc.ttfts, acc.tprs⟩, ?_⟩
      simp [metricsLoopAux, ho, hacc]

/-- C3: whenever the outcome list fits inside input_requests, the loop of
calculate_metrics succeeds, its tpot list holds exactly the value
(latency - ttft) / (output_len - 1) for each successful outcome whose
tokenized output length exceeds 1 (in order, nothing for shorter
successes), and completed still counts every successful outcome,
including those excluded from the tpot distribution. -/
theorem tpot_distribution_characterization (ips : List RequestSpec)
    (outs : List RequestFuncOutput) (tok : String → List ℕ)
    (h : outs.length ≤ ips.length) :
    ∃ acc, metricsLoop ips tok outs = .ok acc
      ∧ acc.tpots = ((outs.filter fun o =>
            o.success && decide (1 < (tok o.generated_text).length)).map fun o =>
            (o.latency - o.ttft) / (((tok o.generated_text).length : ℚ) - 1))
      ∧ acc.completed = (outs.filter fun o => o.success).length := by
  obtain ⟨acc, hacc⟩ := metricsLoopAux_total ips tok outs 0 (by omega)
  obtain ⟨h1, h2, h3, h4⟩ := metricsLoopAux_char ips tok outs 0 acc hacc
  exact ⟨acc, hacc, h2, h1⟩

/-- Request pool for the C3 witness. -/
def c3_ips : List RequestSpec := [("a", 5, 4), ("b", 6, 4), ("c", 7, 4)]

/-- Outcome list for the C3 witness: a success with 3 output tokens, a
success with a single output token, and a failure. -/
def c3_outs : List RequestFuncOutput :=
  [⟨true, 1, 1/2, [], "aaa", 5, none⟩,
   ⟨true, 1, 1/2, [], "a", 6, none⟩,
   ⟨false, 0, 0, [], "", 7, some ("connection reset")⟩]

/-- Witness for C3 at a concrete mixed outcome list. -/
theorem tpot_distribution_characterization_witness :
    c3_outs.length ≤ c3_ips.length
    ∧ ∃ acc, metricsLoop c3_ips tokLen c3_outs = .ok acc
      ∧ acc.tpots = ((c3_outs.filter fun o =>
            o.success && decide (1 < (tokLen o.generated_text).length)).map fun o =>
            (o.latency - o.ttft) / (((tokLen o.generated_text).length : ℚ) - 1))
      ∧ acc.completed = (c3_outs.filter fun o => o.success).length :=
  ⟨by decide, tpot_distribution_characterization c3_ips c3_outs tokLen (by decide)⟩

/-- A successful statBlock run entails a non-empty sample list, because
np.min raises on an empty array. -/
theorem statBlock_ok_ne_nil {l : List ℚ} {v : DistStats} (h : statBlock l = .ok v) :
    l ≠ [] := by
  intro he
  subst he
  simp [statBlock, npMin] at h

/-- Inserting into a sorted list adds one element. -/
theorem length_insertSorted (x : ℚ) :
    ∀ l : List ℚ, (insertSorted x l).length = l.length + 1 := by
  intro l
  induction l with
  | nil => simp [insertSorted]
  | cons y ys ih =>
    by_cases hxy : x ≤ y
    · simp [insertSorted, hxy]
    · simp [insertSorted, hxy, ih]

/-- Sorting preserves length. -/
theorem length_sortAsc (l : List ℚ) : (sortAsc l).length = l.length := by
  induction l with
  | nil => simp [sortAsc]
  | cons x xs ih =>
    show (insertSorted x (sortAsc xs)).length = xs.length + 1
    rw [length_insertSorted, ih]

/-- np.percentile succeeds on any non-empty sample list. -/
theorem npPercentile_total (q : ℕ) {l : List ℚ} (h : l ≠ []) :
    ∃ v, npPercentile l q = .ok v := by
  cases hs : sortAsc l with
  | nil =>
    exfalso
    have hl := length_sortAsc l
    rw [hs] at hl
    simp at hl
    exact h (List.length_eq_zero.mp hl.symm)
  | cons x xs =>
    unfold npPercentile
    rw [hs]
    exact ⟨_, rfl⟩

/-- statBlock succeeds on any non-empty sample list. -/
theorem statBlock_total {l : List ℚ} (h : l ≠ []) : ∃ v, statBlock l = .ok v := by
  cases l with
  | nil => exact absurd rfl h
  | cons x xs =>
    obtain ⟨v50, h50⟩ := npPercentile_total 50 (List.cons_ne_nil x xs)
    obtain ⟨v90, h90⟩ := npPercentile_total 90 (List.cons_ne_nil x xs)
    obtain ⟨v99, h99⟩ := npPercentile_total 99 (List.cons_ne_nil x xs)
    exact ⟨⟨(xs.foldl min x) * 1000, (xs.foldl max x) * 1000,
            ((x + xs.sum) / (xs.length + 1)) * 1000, v50 * 1000, v90 * 1000, v99 * 1000⟩,
      by simp [statBlock, npMin, npMax, npMean, npMedian, h50, h90, h99]⟩

/-- Inverting a successful run of calculate_metrics: the loop succeeded,
the outcome list was non-empty, and the rate, throughput and total_input
fields are the corresponding quotients of the loop accumulator, with a
non-empty tpot sample list. -/
theorem calculate_metrics_ok_inversion (ips : List RequestSpec)
    (outs : List RequestFuncOutput) (dur : ℚ) (tok : String → List ℕ)
    (m : BenchmarkMetrics) (lens : List ℕ)
    (h : calculate_metrics ips outs dur tok = .ok (m, lens)) :
    ∃ acc, metricsLoop ips tok outs = .ok acc
      ∧ m.completed = acc.completed
      ∧ ((outs.length : ℚ)) ≠ 0
      ∧ m.successful_rate = (acc.completed : ℚ) / ((outs.length : ℚ))
      ∧ m.request_throughput = (acc.completed : ℚ) / dur
      ∧ m.total_input = acc.total_input
      ∧ acc.tpots ≠ []
      ∧ lens = acc.actual_output_lens := by
  unfold calculate_metrics at h
  cases hloop : metricsLoop ips tok outs with
  | error e => rw [hloop] at h; simp at h
  | ok acc =>
    simp only [hloop, ok_bind] at h
    by_cases hlen : ((outs.length : ℚ)) = 0
    · simp only [pydiv, if_pos hlen, error_bind] at h
      simp at h
    · simp only [pydiv, if_neg hlen, ok_bind] at h
      by_cases hdur : dur = 0
      · simp only [if_pos hdur, error_bind] at h
        simp at h
      · simp only [if_neg hdur, ok_bind] at h
        cases ht : ttftBlock acc.ttfts with
        | error e => rw [ht, error_bind] at h; simp at h
        | ok t =>
          simp only [ht, ok_bind] at h
          cases hp : statBlock acc.tpots with
          | error e => rw [hp, error_bind] at h; simp at h
          | ok p =>
            simp only [hp, ok_bind] at h
            cases hr : statBlock acc.tprs with
            | error e => rw [hr, error_bind] at h; simp at h
            | ok r =>
              simp only [hr, ok_bind, Except.ok.injEq, Prod.mk.injEq] at h
              obtain ⟨hm, hlens⟩ := h
              subst hm
              exact ⟨acc, rfl, rfl, hlen, rfl, rfl, rfl,
                     statBlock_ok_ne_nil hp, hlens.symm⟩

/-- Inverting Except.map on a successful result. -/
theorem except_map_ok_inversion {ε α β : Type} {f : α → β} {x : Except ε α} {b : β}
    (h : x.map f = .ok b) : ∃ a, x = .ok a ∧ f a = b := by
  cases x with
  | error e => simp [Except.map] at h
  | ok a =>
    refine ⟨a, rfl, ?_⟩
    simpa [Except.map] using h

/-- C4: whenever calculate_metrics returns a metrics report, its
successful_rate field is the number of successful outcomes divided by the
number of all dispatched outcomes, successes and failures alike. -/
theorem successful_rate_denominator (ips : List RequestSpec)
    (outs : List RequestFuncOutput) (dur : ℚ) (tok : String → List ℕ) (r : ℚ)
    (h : (calculate_metrics ips outs dur tok).map
      (fun p => p.1.successful_rate) = .ok r) :
    r = (((outs.filter fun o => o.success).length : ℚ)) / ((outs.length : ℚ)) := by
  obtain ⟨pr, hcm, hr⟩ := except_map_ok_inversion h
  obtain ⟨m, lens⟩ := pr
  obtain ⟨acc, hacc, _, hlen, hrate, _, _, _, _⟩ :=
    calculate_metrics_ok_inversion ips outs dur tok m lens hcm
  obtain ⟨h1, _, _, _⟩ := metricsLoopAux_char ips tok outs 0 acc hacc
  subst hr
  simp only []
  rw [hrate, h1]

/-- Pool of 10 identical requests for the C4 witness. -/
def c4_ips : List RequestSpec :=
  [("p", 5, 4), ("p", 5, 4), ("p", 5, 4), ("p", 5, 4), ("p", 5, 4),
   ("p", 5, 4), ("p", 5, 4), ("p", 5, 4), ("p", 5, 4), ("p", 5, 4)]

/-- A successful outcome with 2 output tokens for the C4 witness. -/
def c4_success : RequestFuncOutput := ⟨true, 1, 1/2, [], "aa", 5, none⟩

/-- A failed outcome for the C4 witness. -/
def c4_failure : RequestFuncOutput := ⟨false, 0, 0, [], "", 5, some ("server overloaded")⟩

/-- 7 successes followed by 3 failures. -/
def c4_outs : List RequestFuncOutput :=
  [c4_success, c4_success, c4_success, c4_success, c4_success, c4_success, c4_success,
   c4_failure, c4_failure, c4_failure]

/-- Loop evaluation for the C4 witness. -/
theorem c4_loop_eval : metricsLoop c4_ips tokLen c4_outs =
    .ok ⟨[2, 2, 2, 2, 2, 2, 2, 0, 0, 0], 35, 7,
         [1/2, 1/2, 1/2, 1/2, 1/2, 1/2, 1/2],
         [1/2, 1/2, 1/2, 1/2, 1/2, 1/2, 1/2],
         [1, 1, 1, 1, 1, 1, 1]⟩ := by
  norm_num [metricsLoop, metricsLoopAux, c4_ips, c4_outs, c4_success, c4_failure, tokLen]

/-- Statistics of seven samples of one half second. -/
theorem c4_half_eval : statBlock [1/2, 1/2, 1/2, 1/2, 1/2, 1/2, 1/2] =
    .ok ⟨500, 500, 500, 500, 500, 500⟩ := by
  norm_num [statBlock, npMin, npMax, npMean, npMedian, npPercentile, sortAsc, insertSorted]

/-- The guarded ttft statistics on the seven half-second samples. -/
theorem c4_ttft_eval : ttftBlock [1/2, 1/2, 1/2, 1/2, 1/2, 1/2, 1/2] =
    .ok ⟨500, 500, 500, 500, 500, 500⟩ := by
  norm_num [ttftBlock, statBlock, npMin, npMax, npMean, npMedian, npPercentile, sortAsc,
    insertSorted]

/-- Statistics of seven samples of one second. -/
theorem c4_one_eval : statBlock [1, 1, 1, 1, 1, 1, 1] =
    .ok ⟨1000, 1000, 1000, 1000, 1000, 1000⟩ := by
  norm_num [statBlock, npMin, npMax, npMean, npMedian, npPercentile, sortAsc, insertSorted]

/-- Length of the C4 outcome list. -/
theorem c4_outs_length : c4_outs.length = 10 := rfl

/-- Witness for C4: 7 successes and 3 failures give successful_rate
7 / 10 = 0.7. -/
theorem successful_rate_denominator_witness :
    (calculate_metrics c4_ips c4_outs 1 tokLen).map (fun p => p.1.successful_rate)
      = .ok (7/10)
    ∧ (7/10 : ℚ) = (((c4_outs.filter fun o => o.success).length : ℚ)) / ((c4_outs.length : ℚ)) := by
  have hev : (calculate_metrics c4_ips c4_outs 1 tokLen).map
      (fun p => p.1.successful_rate) = .ok (7/10) := by
    norm_num [calculate_metrics, c4_loop_eval, c4_ttft_eval, c4_half_eval, c4_one_eval,
      c4_outs_length, pydiv, Except.map]
  exact ⟨hev, successful_rate_denominator c4_ips c4_outs 1 tokLen (7/10) hev⟩

/-- C9: when the outcome list contains at least one success but every
successful outcome tokenizes to at most one output token, the tpot sample
list stays empty and calculate_metrics raises the numpy ValueError of
np.min on that empty array (provided the indexes fit and the duration is
non-zero, so that no earlier operation raises first); and conversely a
normal return of calculate_metrics requires at least one successful
outcome with tokenized output length above 1. -/
theorem all_short_successes_raise (ips : List RequestSpec)
    (outs : List RequestFuncOutput) (dur : ℚ) (tok : String → List ℕ)
    (hlen : outs.length ≤ ips.length) (hdur : dur ≠ 0)
    (hex : ∃ o ∈ outs, o.success = true)
    (hshort : ∀ o ∈ outs, o.success = true → (tok o.generated_text).length ≤ 1) :
    calculate_metrics ips outs dur tok = .error .emptyValueError
    ∧ ∀ (ips2 : List RequestSpec) (outs2 : List RequestFuncOutput) (dur2 : ℚ)
        (tok2 : String → List ℕ) (m : BenchmarkMetrics) (lens : List ℕ),
        calculate_metrics ips2 outs2 dur2 tok2 = .ok (m, lens) →
        ∃ o ∈ outs2, o.success = true ∧ 1 < (tok2 o.generated_text).length := by
  constructor
  · have houtsne : outs ≠ [] := by
      obtain ⟨o, ho, _⟩ := hex
      intro he
      subst he
      simp at ho
    have hlenq : ((outs.length : ℚ)) ≠ 0 := by
      intro hq
      rw [Nat.cast_eq_zero] at hq
      exact houtsne (List.length_eq_zero.mp hq)
    obtain ⟨acc, hacc⟩ := metricsLoopAux_total ips tok outs 0 (by omega)
    obtain ⟨h1, h2, h3, h4⟩ := metricsLoopAux_char ips tok outs 0 acc hacc
    have htpots : acc.tpots = [] := by
      rw [h2]
      have hfil : (outs.filter fun o =>
          o.success && decide (1 < (tok o.generated_text).length)) = [] := by
        apply List.filter_eq_nil_iff.mpr
        intro o ho
        simp only [Bool.and_eq_true, decide_eq_true_eq, not_and]
        intro hsucc hgt
        have := hshort o ho hsucc
        omega
      rw [hfil]
      rfl
    have httfts : acc.ttfts ≠ [] := by
      rw [h3]
      obtain ⟨o, ho, hsucc⟩ := hex
      intro hm
      have hfne : (outs.filter fun o => o.success) ≠ [] := by
        intro hf
        have := List.filter_eq_nil_iff.mp hf o ho
        simp [hsucc] at this
      exact hfne (List.map_eq_nil_iff.mp hm)
    obtain ⟨t, ht⟩ : ∃ t, ttftBlock acc.ttfts = .ok t := by
      unfold ttftBlock
      rw [if_neg (by simpa [List.isEmpty_iff] using httfts)]
      exact statBlock_total httfts
    have hacc2 : metricsLoop ips tok outs = .ok acc := hacc
    unfold calculate_metrics
    simp only [hacc2, ok_bind, pydiv, if_neg hlenq, if_neg hdur, ht, htpots]
    simp [statBlock, npMin]
  · intro ips2 outs2 dur2 tok2 m lens hok
    obtain ⟨acc, hacc, _, _, _, _, _, htp, _⟩ :=
      calculate_metrics_ok_inversion ips2 outs2 dur2 tok2 m lens hok
    obtain ⟨_, h2, _, _⟩ := metricsLoopAux_char ips2 tok2 outs2 0 acc hacc
    rw [h2] at htp
    have hfil : (outs2.filter fun o =>
        o.success && decide (1 < (tok2 o.generated_text).length)) ≠ [] := by
      intro hf
      rw [hf] at htp
      exact htp rfl
    obtain ⟨o, hmem⟩ := List.exists_mem_of_ne_nil _ hfil
    have hmem2 := List.mem_filter.mp hmem
    have hpred := hmem2.2
    simp only [Bool.and_eq_true, decide_eq_true_eq] at hpred
    exact ⟨o, hmem2.1, hpred.1, hpred.2⟩

/-- Request pool for the C9 witness. -/
def c9_ips : List RequestSpec := [("a", 5, 4)]

/-- A single successful outcome whose generated text tokenizes to one
token. -/
def c9_outs : List RequestFuncOutput := [⟨true, 1, 1/2, [], "a", 5, none⟩]

/-- Witness for C9 at a concrete one-success list with a single output
token. -/
theorem all_short_successes_raise_witness :
    (c9_outs.length ≤ c9_ips.length ∧ (1 : ℚ) ≠ 0
      ∧ (∃ o ∈ c9_outs, o.success = true)
      ∧ (∀ o ∈ c9_outs, o.success = true → (tokLen o.generated_text).length ≤ 1))
    ∧ (calculate_metrics c9_ips c9_outs 1 tokLen = .error .emptyValueError
      ∧ ∀ (ips2 : List RequestSpec) (outs2 : List RequestFuncOutput) (dur2 : ℚ)
          (tok2 : String → List ℕ) (m : BenchmarkMetrics) (lens : List ℕ),
          calculate_metrics ips2 outs2 dur2 tok2 = .ok (m, lens) →
          ∃ o ∈ outs2, o.success = true ∧ 1 < (tok2 o.generated_text).length) :=
  ⟨⟨by decide, by norm_num, ⟨⟨true, 1, 1/2, [], "a", 5, none⟩, by simp [c9_outs], rfl⟩,
    by
      intro o ho hs
      simp only [c9_outs, List.mem_singleton] at ho
      subst ho
      decide⟩,
   all_short_successes_raise c9_ips c9_outs 1 tokLen (by decide) (by norm_num)
     ⟨⟨true, 1, 1/2, [], "a", 5, none⟩, by simp [c9_outs], rfl⟩
     (by
       intro o ho hs
       simp only [c9_outs, List.mem_singleton] at ho
       subst ho
       decide)⟩
